import Mathlib

/-!
Shallow embedding of the parameter-resolution, invocation-construction and
result-normalization pipeline of the Ginkgo test executor
(src/pkg/runner/runner.go), together with theorems settling the frozen
claims about it.

Go maps are modelled as association lists whose entry order stands for the
(unspecified) Go map iteration order; Go strings are Lean strings; the
destructive update of the variable mapping is modelled by returning the
updated Execution value.
-/

namespace GinkgoRunner

/-- One entry of the Execution variable mapping (testkube.Variable): a name
and an opaque string value. The secret marker is resolved externally before
this pipeline runs and is not modelled. -/
structure Variable where
  Name : String
  Value : String
deriving DecidableEq, Repr

/-- Repository reference of the content descriptor (testkube.Repository),
restricted to the fields the modelled code reads. -/
structure Repository where
  Branch : String
  Commit : String
deriving DecidableEq, Repr

/-- Content descriptor (testkube.TestContent). The IsFile predicate is an
external testkube method on the content type field; it is modelled as a
boolean field. -/
structure Content where
  Repository : Option Repository
  IsFile : Bool
deriving DecidableEq, Repr

/-- The Execution request, restricted to the fields the modelled pipeline
logic reads: content descriptor, variable mapping and positional args. -/
structure Execution where
  Id : String
  Content : Option Content
  Variables : List Variable
  Args : List String
deriving DecidableEq, Repr

/-- One normalized per-test step of the result
(testkube.ExecutionStepResult). -/
structure ExecutionStepResult where
  Name : String
  Duration : String
  Status : String
deriving DecidableEq, Repr

/-- The Execution Result (testkube.ExecutionResult) restricted to the fields
the modelled code writes; errors collects the messages attached by
WithErrors. -/
structure ExecutionResult where
  Status : String
  Output : String
  OutputType : String
  Steps : List ExecutionStepResult
  Errors : List String
deriving DecidableEq, Repr

/-- Modelled from the external testkube library: WithErrors attaches the
message of each non-nil error argument to the result (multi-error
aggregation as described by the spec). -/
def ExecutionResult.WithErrors (r : ExecutionResult) (errs : List (Option String)) :
    ExecutionResult :=
  { r with Errors := r.Errors ++ errs.filterMap id }

/-- One parsed JUnit test case (go-junit Test): name, duration already
rendered as text (the rendering itself is Go stdlib, external to the
modelled code) and the raw status string. -/
structure JunitTest where
  Name : String
  DurationStr : String
  Status : String
deriving DecidableEq, Repr

/-- One parsed JUnit suite (go-junit Suite): name and ordered test cases.
Child suites are not modelled because the code does not descend into them. -/
structure JunitSuite where
  Name : String
  Tests : List JunitTest
deriving DecidableEq, Repr

/-- Go strings.Split with a single-space separator: splits on every space
and keeps empty fields; the split of the empty string is the one-element
list holding the empty string. Defined on the character list so that it
evaluates inside the kernel. -/
def goSplitSpaceChars (cs : List Char) : List (List Char) :=
  cs.foldr
    (fun c acc =>
      if c = ' ' then [] :: acc
      else
        match acc with
        | [] => [[c]]
        | a :: as => (c :: a) :: as)
    [[]]

/-- Go strings.Split(s, " "). -/
def goSplitSpace (s : String) : List String :=
  (goSplitSpaceChars s.data).map List.asString

/-- Go path/filepath.Join of two elements, without the Clean normalization
of the Go stdlib (no claim depends on it): empty elements are dropped and
the rest joined with a slash. -/
def filepathJoin (a b : String) : String :=
  if a = "" then b else if b = "" then a else a ++ "/" ++ b

/-- The default Parameter Table (runner.go InitializeGinkgoParams), in the
insertion order of the source; a Go map has no observable order, so the
list order only fixes one of the possible iteration orders. -/
def InitializeGinkgoParams : List (String × String) :=
  [("GinkgoTestPackage", ""),
   ("GinkgoRecursive", "-r"),
   ("GinkgoParallel", "-p"),
   ("GinkgoParallelProcs", ""),
   ("GinkgoCompilers", ""),
   ("GinkgoRandomize", "--randomize-all"),
   ("GinkgoRandomizeSuites", "--randomize-suites"),
   ("GinkgoLabelFilter", ""),
   ("GinkgoFocusFilter", ""),
   ("GinkgoSkipFilter", ""),
   ("GinkgoUntilItFails", ""),
   ("GinkgoRepeat", ""),
   ("GinkgoFlakeAttempts", ""),
   ("GinkgoTimeout", ""),
   ("GinkgoSkipPackage", ""),
   ("GinkgoFailFast", ""),
   ("GinkgoKeepGoing", "--keep-going"),
   ("GinkgoFailOnPending", ""),
   ("GinkgoCover", ""),
   ("GinkgoCoverProfile", ""),
   ("GinkgoRace", ""),
   ("GinkgoTrace", "--trace"),
   ("GinkgoJsonReport", ""),
   ("GinkgoJunitReport", "--junit-report report.xml"),
   ("GinkgoTeamCityReport", "")]

/-- The package-level default table (runner.go ginkgoDefaultParams). -/
def ginkgoDefaultParams : List (String × String) := InitializeGinkgoParams

/-- Go map read params[k] on a string-valued map: the zero value (empty
string) when the key is absent. -/
def lookupParam (params : List (String × String)) (k : String) : String :=
  ((params.find? (fun kp => kp.1 == k)).map Prod.snd).getD ""

/-- Go map read with presence information: some value when the key is
present, none otherwise. -/
def lookupStr (params : List (String × String)) (k : String) : Option String :=
  (params.find? (fun kp => kp.1 == k)).map Prod.snd

/-- The per-key body of the FindGinkgoParams loop (runner.go 204-218): an
override present in the variable mapping wins, otherwise a non-empty
default is kept and an empty default drops the key. -/
def resolveParam (vars : List Variable) (kp : String × String) :
    Option (String × String) :=
  match vars.find? (fun v => v.Name == kp.1) with
  | some v => some (kp.1, v.Value)
  | none => if kp.2 ≠ "" then some kp else none

/-- FindGinkgoParams (runner.go 204-218): resolves the Parameter Table
against the variable mapping and destructively strips the consumed keys;
the stripped Execution is returned as the second component. -/
def FindGinkgoParams (execution : Execution) (defaultParams : List (String × String)) :
    List (String × String) × Execution :=
  (defaultParams.filterMap (resolveParam execution.Variables),
   { execution with
       Variables := execution.Variables.filter
         (fun v => (defaultParams.find? (fun kp => kp.1 == v.Name)).isNone) })

/-- BuildGinkgoArgs (runner.go 220-241): every resolved value except the
target-path key is split on spaces into tokens, then the target-path token
is appended; the always-nil Go error return is omitted. -/
def BuildGinkgoArgs (params : List (String × String)) (path runPath : String) :
    List String :=
  let args := (params.filter (fun kp => kp.1 ≠ "GinkgoTestPackage")).flatMap
    (fun kp => goSplitSpace kp.2)
  if lookupParam params "GinkgoTestPackage" ≠ "" then
    if path ≠ runPath then
      args ++ [filepathJoin path (lookupParam params "GinkgoTestPackage")]
    else
      args ++ [lookupParam params "GinkgoTestPackage"]
  else
    if path ≠ runPath then args ++ [path] else args

/-- BuildGinkgoPassThroughFlags (runner.go 246-264): one literal flag per
leftover variable, then the positional args, prefixed by one separator
token when anything is present. -/
def BuildGinkgoPassThroughFlags (execution : Execution) : List String :=
  let flags := execution.Variables.map (fun v => "--" ++ v.Name ++ "=" ++ v.Value)
  let flags2 := if execution.Args.length > 0 then flags ++ execution.Args else flags
  if flags2.length > 0 then ["--"] ++ flags2 else flags2

/-- The reasons Validate can reject an Execution, in source order. -/
inductive ValidationError where
  | noContent
  | noRepository
  | noBranchOrCommit
  | singleFile
deriving DecidableEq, Repr

/-- Validate (runner.go 267-285): checks content presence, repository
presence, branch-or-commit presence and the single-file rejection, in that
order; none means the Execution is accepted. -/
def Validate (execution : Execution) : Option ValidationError :=
  match execution.Content with
  | none => some ValidationError.noContent
  | some content =>
    match content.Repository with
    | none => some ValidationError.noRepository
    | some repo =>
      if repo.Branch = "" ∧ repo.Commit = "" then some ValidationError.noBranchOrCommit
      else if content.IsFile then some ValidationError.singleFile
      else none

/-- MapStatus (runner.go 318-325). -/
def MapStatus (s : String) : String :=
  if s = "passed" then "passed" else "failed"

/-- The body of the inner loop of MapJunitToExecutionResults (runner.go
294-305): append one step for the test case and raise the failed flag when
the raw status is exactly the failed status string. -/
def mapTestFold (suiteName : String) (acc : List ExecutionStepResult × Bool)
    (t : JunitTest) : List ExecutionStepResult × Bool :=
  (acc.1 ++ [{ Name := suiteName ++ " - " ++ t.Name,
               Duration := t.DurationStr,
               Status := MapStatus t.Status }],
   acc.2 || (t.Status == "failed"))

/-- The body of the outer loop of MapJunitToExecutionResults: fold the
tests of one suite. -/
def mapSuiteFold (acc : List ExecutionStepResult × Bool) (suite : JunitSuite) :
    List ExecutionStepResult × Bool :=
  suite.Tests.foldl (mapTestFold suite.Name) acc

/-- MapJunitToExecutionResults (runner.go 287-316). -/
def MapJunitToExecutionResults (out : String) (suites : List JunitSuite) :
    ExecutionResult :=
  let acc := suites.foldl mapSuiteFold ([], false)
  { Status := if acc.2 then "failed" else "passed",
    Output := out,
    OutputType := "text/plain",
    Steps := acc.1,
    Errors := [] }

/-- The tail of GinkgoRunner.Run after the subprocess invocation
(runner.go 145-161), as a function of the captured output, the invocation
error, the parsed suites, the parse error, the scraper flag and the scrape
outcome; returns the result and the Go error value of Run (nil on every
path modelled here). -/
def RunTail (out : String) (err : Option String) (suites : List JunitSuite)
    (serr : Option String) (scrapperEnabled : Bool) (scrapeErr : Option String) :
    ExecutionResult × Option String :=
  let result := MapJunitToExecutionResults out suites
  if scrapperEnabled then
    match scrapeErr with
    | some e => (result.WithErrors [some ("scrape artifacts error: " ++ e)], none)
    | none => (result.WithErrors [err, serr], none)
  else
    (result.WithErrors [err, serr], none)

/-- The report filename extraction Run applies to a resolved report
parameter value: in Go the token at index 1 of the space split; none models
the out-of-bounds index when the split has fewer than two elements. Run
applies it to the GinkgoJunitReport value unconditionally before parsing
(runner.go 145). -/
def reportFileToken (v : String) : Option String :=
  (goSplitSpace v)[1]?

example : goSplitSpace "" = [""] := by decide
example : goSplitSpace "--junit-report report.xml" = ["--junit-report", "report.xml"] := by decide
example : goSplitSpace "a  b" = ["a", "", "b"] := by decide
example : reportFileToken "" = none := by decide

/-- The step record MapJunitToExecutionResults builds for one test case of
one suite. -/
def stepOfTest (suiteName : String) (t : JunitTest) : ExecutionStepResult :=
  { Name := suiteName ++ " - " ++ t.Name,
    Duration := t.DurationStr,
    Status := MapStatus t.Status }

theorem foldl_mapTestFold (suiteName : String) (tests : List JunitTest)
    (acc : List ExecutionStepResult × Bool) :
    tests.foldl (mapTestFold suiteName) acc =
      (acc.1 ++ tests.map (stepOfTest suiteName),
       acc.2 || tests.any (fun t => t.Status == "failed")) := by
  induction tests generalizing acc with
  | nil => simp
  | cons t ts ih =>
    simp [List.foldl_cons, ih, mapTestFold, stepOfTest, Bool.or_assoc]

theorem foldl_mapSuiteFold (suites : List JunitSuite)
    (acc : List ExecutionStepResult × Bool) :
    suites.foldl mapSuiteFold acc =
      (acc.1 ++ suites.flatMap (fun s => s.Tests.map (stepOfTest s.Name)),
       acc.2 || suites.any (fun s => s.Tests.any (fun t => t.Status == "failed"))) := by
  induction suites generalizing acc with
  | nil => simp
  | cons s ss ih =>
    simp [List.foldl_cons, mapSuiteFold, foldl_mapTestFold, ih, Bool.or_assoc]

/-- C9: the Result Mapper produces exactly one step per top-level test case,
in report order, named by joining suite and test name, carrying the rendered
duration, with step status passed exactly when the raw status string equals
passed and failed otherwise; for a report with zero suites the step sequence
is empty and the overall status is passed. -/
theorem mapJunit_steps_in_order (out : String) (suites : List JunitSuite) :
    (MapJunitToExecutionResults out suites).Steps =
      suites.flatMap (fun s => s.Tests.map (fun t =>
        { Name := s.Name ++ " - " ++ t.Name,
          Duration := t.DurationStr,
          Status := if t.Status = "passed" then "passed" else "failed" })) ∧
    (MapJunitToExecutionResults out ([] : List JunitSuite)).Steps = [] ∧
    (MapJunitToExecutionResults out ([] : List JunitSuite)).Status = "passed" := by
  refine ⟨?_, by simp [MapJunitToExecutionResults], by simp [MapJunitToExecutionResults]⟩
  simp only [MapJunitToExecutionResults, foldl_mapSuiteFold, List.nil_append]
  congr 1

/-- C1 counterexample: a test case whose raw status is skipped produces a
step with status failed while the overall status stays passed, so the
overall status is not failed even though a step is failed. -/
theorem mapJunit_step_failed_overall_passed :
    ((MapJunitToExecutionResults ""
        [{ Name := "A",
           Tests := [{ Name := "t", DurationStr := "0s", Status := "skipped" }] }]).Steps.map
      (fun s => s.Status) = ["failed"]) ∧
    (MapJunitToExecutionResults ""
        [{ Name := "A",
           Tests := [{ Name := "t", DurationStr := "0s", Status := "skipped" }] }]).Status
      = "passed" := by
  decide

/-- C1 amended: the overall status of the Execution Result is failed exactly
when at least one test case in the report has raw status string failed, and
is passed otherwise; the raw status, not the mapped step status, decides the
aggregate, and the subprocess exit code is not consulted. -/
theorem mapJunit_overall_iff_raw_failed (out : String) (suites : List JunitSuite) :
    (MapJunitToExecutionResults out suites).Status =
      if suites.any (fun s => s.Tests.any (fun t => t.Status == "failed"))
      then "failed" else "passed" := by
  simp only [MapJunitToExecutionResults, foldl_mapSuiteFold]
  simp

/-- C4: BuildGinkgoArgs appends the target-path token last: the non-empty
target-path value joined onto the content path when path and run-path
differ, the bare value when they are equal, the bare content path when the
value is empty and the paths differ, and nothing otherwise. -/
theorem buildGinkgoArgs_target_last (params : List (String × String))
    (path runPath : String) :
    BuildGinkgoArgs params path runPath =
      (params.filter (fun kp => kp.1 ≠ "GinkgoTestPackage")).flatMap
        (fun kp => goSplitSpace kp.2)
      ++ (if lookupParam params "GinkgoTestPackage" ≠ "" then
            if path ≠ runPath then
              [filepathJoin path (lookupParam params "GinkgoTestPackage")]
            else [lookupParam params "GinkgoTestPackage"]
          else if path ≠ runPath then [path] else []) := by
  unfold BuildGinkgoArgs
  split_ifs <;> simp

/-- C5: the Pass-Through Flag Builder emits one literal flag per leftover
variable, then the positional args in order, prefixed by exactly one
separator token when the combined vector is non-empty, and emits nothing
when both inputs are empty. -/
theorem buildGinkgoPassThroughFlags_spec (e : Execution) :
    BuildGinkgoPassThroughFlags e =
      if e.Variables = [] ∧ e.Args = [] then []
      else "--" :: (e.Variables.map (fun v => "--" ++ v.Name ++ "=" ++ v.Value)
                    ++ e.Args) := by
  unfold BuildGinkgoPassThroughFlags
  cases hv : e.Variables <;> cases ha : e.Args <;> simp

/-- C3 counterexample: resolving the variable mapping that sets the
recognized key GinkgoRecursive to the empty string does not give the same
argument vector as resolving the empty variable mapping; the empty override
contributes an empty-string token where absence contributes the default
token -r. -/
theorem emptyOverride_not_absent :
    (BuildGinkgoArgs
        (FindGinkgoParams
          { Id := "", Content := none,
            Variables := [{ Name := "GinkgoRecursive", Value := "" }], Args := [] }
          ginkgoDefaultParams).1 "p" "p"
      ≠ BuildGinkgoArgs
        (FindGinkgoParams
          { Id := "", Content := none, Variables := [], Args := [] }
          ginkgoDefaultParams).1 "p" "p") ∧
    "" ∈ BuildGinkgoArgs
        (FindGinkgoParams
          { Id := "", Content := none,
            Variables := [{ Name := "GinkgoRecursive", Value := "" }], Args := [] }
          ginkgoDefaultParams).1 "p" "p" ∧
    "-r" ∉ BuildGinkgoArgs
        (FindGinkgoParams
          { Id := "", Content := none,
            Variables := [{ Name := "GinkgoRecursive", Value := "" }], Args := [] }
          ginkgoDefaultParams).1 "p" "p" ∧
    "-r" ∈ BuildGinkgoArgs
        (FindGinkgoParams
          { Id := "", Content := none, Variables := [], Args := [] }
          ginkgoDefaultParams).1 "p" "p" ∧
    "" ∉ BuildGinkgoArgs
        (FindGinkgoParams
          { Id := "", Content := none, Variables := [], Args := [] }
          ginkgoDefaultParams).1 "p" "p" := by
  decide

/-- C3 amended: an explicit empty override for a recognized key replaces
the default but is not idempotent with absence: the key resolves to the
empty string, whose space split contributes one empty-string token to the
argument vector in place of the default tokens. In the end-to-end scenario
with variables GinkgoRecursive empty and GinkgoFocusFilter MyFeature plus
one positional arg extra, the focus override contributes the single token
MyFeature (the code never synthesizes a focus flag), Recursive contributes
an empty token rather than being dropped, and the pass-through vector is
the separator followed by extra. -/
theorem emptyOverride_scenario :
    lookupStr (FindGinkgoParams
        { Id := "", Content := none,
          Variables := [{ Name := "GinkgoRecursive", Value := "" },
                        { Name := "GinkgoFocusFilter", Value := "MyFeature" }],
          Args := ["extra"] } ginkgoDefaultParams).1 "GinkgoRecursive" = some "" ∧
    lookupStr (FindGinkgoParams
        { Id := "", Content := none,
          Variables := [{ Name := "GinkgoRecursive", Value := "" },
                        { Name := "GinkgoFocusFilter", Value := "MyFeature" }],
          Args := ["extra"] } ginkgoDefaultParams).1 "GinkgoFocusFilter" = some "MyFeature" ∧
    (FindGinkgoParams
        { Id := "", Content := none,
          Variables := [{ Name := "GinkgoRecursive", Value := "" },
                        { Name := "GinkgoFocusFilter", Value := "MyFeature" }],
          Args := ["extra"] } ginkgoDefaultParams).2.Variables = [] ∧
    BuildGinkgoPassThroughFlags (FindGinkgoParams
        { Id := "", Content := none,
          Variables := [{ Name := "GinkgoRecursive", Value := "" },
                        { Name := "GinkgoFocusFilter", Value := "MyFeature" }],
          Args := ["extra"] } ginkgoDefaultParams).2 = ["--", "extra"] ∧
    "" ∈ BuildGinkgoArgs (FindGinkgoParams
        { Id := "", Content := none,
          Variables := [{ Name := "GinkgoRecursive", Value := "" },
                        { Name := "GinkgoFocusFilter", Value := "MyFeature" }],
          Args := ["extra"] } ginkgoDefaultParams).1 "p" "p" ∧
    "MyFeature" ∈ BuildGinkgoArgs (FindGinkgoParams
        { Id := "", Content := none,
          Variables := [{ Name := "GinkgoRecursive", Value := "" },
                        { Name := "GinkgoFocusFilter", Value := "MyFeature" }],
          Args := ["extra"] } ginkgoDefaultParams).1 "p" "p" ∧
    "-r" ∉ BuildGinkgoArgs (FindGinkgoParams
        { Id := "", Content := none,
          Variables := [{ Name := "GinkgoRecursive", Value := "" },
                        { Name := "GinkgoFocusFilter", Value := "MyFeature" }],
          Args := ["extra"] } ginkgoDefaultParams).1 "p" "p" ∧
    "--focus" ∉ BuildGinkgoArgs (FindGinkgoParams
        { Id := "", Content := none,
          Variables := [{ Name := "GinkgoRecursive", Value := "" },
                        { Name := "GinkgoFocusFilter", Value := "MyFeature" }],
          Args := ["extra"] } ginkgoDefaultParams).1 "p" "p" := by
  decide

/-- C7: the two association lists below hold the same key-value pairs, so
they denote the same Go map under two of its possible iteration orders, yet
BuildGinkgoArgs yields different argument vectors for them; Go map
iteration order is unspecified, so identical inputs can produce different
vectors across calls. -/
theorem buildGinkgoArgs_order_dependent :
    ([("GinkgoParallel", "-p"), ("GinkgoTrace", "--trace")] : List (String × String)).Perm
      [("GinkgoTrace", "--trace"), ("GinkgoParallel", "-p")] ∧
    BuildGinkgoArgs [("GinkgoParallel", "-p"), ("GinkgoTrace", "--trace")] "p" "p"
      ≠ BuildGinkgoArgs [("GinkgoTrace", "--trace"), ("GinkgoParallel", "-p")] "p" "p" := by
  constructor
  · exact List.Perm.swap _ _ _
  · decide

/-- C8 counterexample: when scraping fails, RunTail attaches only the
wrapped scrape error; the process-invocation error and the report-parse
error that occurred are both absent from the returned result. -/
theorem runTail_scrape_failure_drops_errors :
    ((RunTail "out" (some "invocation error") [] (some "parse error") true
        (some "boom")).1.Errors = ["scrape artifacts error: boom"]) ∧
    "invocation error" ∉ (RunTail "out" (some "invocation error") [] (some "parse error")
        true (some "boom")).1.Errors ∧
    "parse error" ∉ (RunTail "out" (some "invocation error") [] (some "parse error")
        true (some "boom")).1.Errors := by
  decide

/-- C8 amended: the result returned by the Run tail always keeps the
already-computed steps, status and output; it carries both the
process-invocation error and the report-parse error when scraping is
disabled or succeeds, but on a scraping failure it carries only the wrapped
scrape error, the other two errors being discarded on that path; the Go
error return of Run is nil on every one of these paths. -/
theorem runTail_error_attachment (out : String) (err serr scrapeErr : Option String)
    (suites : List JunitSuite) (scrapperEnabled : Bool) :
    (RunTail out err suites serr scrapperEnabled scrapeErr).1.Errors =
      (if scrapperEnabled then
        match scrapeErr with
        | some e => ["scrape artifacts error: " ++ e]
        | none => [err, serr].filterMap id
       else [err, serr].filterMap id) ∧
    (RunTail out err suites serr scrapperEnabled scrapeErr).1.Steps =
      (MapJunitToExecutionResults out suites).Steps ∧
    (RunTail out err suites serr scrapperEnabled scrapeErr).1.Status =
      (MapJunitToExecutionResults out suites).Status ∧
    (RunTail out err suites serr scrapperEnabled scrapeErr).1.Output = out ∧
    (RunTail out err suites serr scrapperEnabled scrapeErr).2 = none := by
  cases scrapperEnabled <;> cases scrapeErr <;>
    simp [RunTail, ExecutionResult.WithErrors, MapJunitToExecutionResults]

/-- C10: resolving a variable mapping that overrides GinkgoJunitReport with
the empty string leaves the resolved JUnit report value empty; its space
split has a single element, so the index-1 access Run performs
unconditionally before parsing is out of bounds (a Go runtime panic). -/
theorem junitReport_token_out_of_bounds :
    lookupParam (FindGinkgoParams
        { Id := "", Content := none,
          Variables := [{ Name := "GinkgoJunitReport", Value := "" }], Args := [] }
        ginkgoDefaultParams).1 "GinkgoJunitReport" = "" ∧
    (goSplitSpace "").length = 1 ∧
    reportFileToken (lookupParam (FindGinkgoParams
        { Id := "", Content := none,
          Variables := [{ Name := "GinkgoJunitReport", Value := "" }], Args := [] }
        ginkgoDefaultParams).1 "GinkgoJunitReport") = none := by
  decide

theorem resolveParam_key (vars : List Variable) (kp : String × String)
    (r : String × String) (h : resolveParam vars kp = some r) : r.1 = kp.1 := by
  unfold resolveParam at h
  cases hf : vars.find? (fun v => v.Name == kp.1) with
  | some v => rw [hf] at h; cases h; rfl
  | none =>
    rw [hf] at h
    by_cases hp : kp.2 ≠ "" <;> simp [hp] at h
    rw [h.symm]

theorem lookupStr_resolve_none (vars : List Variable)
    (defaults : List (String × String)) (k : String)
    (habs : ∀ q, (k, q) ∉ defaults) :
    lookupStr (defaults.filterMap (resolveParam vars)) k = none := by
  unfold lookupStr
  rw [Option.map_eq_none', List.find?_eq_none]
  intro x hx hbeq
  obtain ⟨kp, hkp, hres⟩ := List.mem_filterMap.mp hx
  have hx1 : x.1 = kp.1 := resolveParam_key vars kp x hres
  have hk : k = kp.1 := by
    have h2 : x.1 = k := by simpa using hbeq
    rw [← h2, hx1]
  refine habs kp.2 ?_
  rw [hk]
  simpa using hkp

theorem lookupStr_resolve (vars : List Variable) (defaults : List (String × String))
    (hnd : (defaults.map Prod.fst).Nodup) (k p : String) (hmem : (k, p) ∈ defaults) :
    lookupStr (defaults.filterMap (resolveParam vars)) k =
      (match vars.find? (fun v => v.Name == k) with
       | some v => some v.Value
       | none => if p = "" then none else some p) := by
  induction defaults with
  | nil => cases hmem
  | cons kp rest ih =>
    obtain ⟨k0, p0⟩ := kp
    rw [List.map_cons, List.nodup_cons] at hnd
    rw [List.filterMap_cons]
    rcases List.mem_cons.mp hmem with heq | hrest
    · obtain ⟨hk, hp⟩ := Prod.mk.injEq .. ▸ heq
      subst hk
      subst hp
      cases hres : resolveParam vars (k, p) with
      | some r =>
        have hrk : r.1 = k := resolveParam_key vars (k, p) r hres
        unfold lookupStr
        rw [List.find?_cons_of_pos _ (by simp [hrk])]
        unfold resolveParam at hres
        cases hf : vars.find? (fun v => v.Name == k) with
        | some v =>
          rw [hf] at hres
          cases hres
          simp
        | none =>
          rw [hf] at hres
          by_cases hp0 : p ≠ ""
          · rw [if_pos hp0] at hres
            cases hres
            simp [hp0]
          · simp [hp0] at hres
      | none =>
        unfold resolveParam at hres
        cases hf : vars.find? (fun v => v.Name == k) with
        | some v => rw [hf] at hres; cases hres
        | none =>
          rw [hf] at hres
          by_cases hp0 : p ≠ ""
          · simp [hp0] at hres
          · rw [not_ne_iff] at hp0
            rw [lookupStr_resolve_none vars rest k
              (fun q hq => hnd.1 (List.mem_map.mpr ⟨(k, q), hq, rfl⟩))]
            simp [hp0]
    · have hkmem : k ∈ rest.map Prod.fst := List.mem_map.mpr ⟨(k, p), hrest, rfl⟩
      have hkk0 : k ≠ k0 := fun h => hnd.1 (h ▸ hkmem)
      cases hres : resolveParam vars (k0, p0) with
      | some r =>
        have hrk : r.1 = k0 := resolveParam_key vars (k0, p0) r hres
        unfold lookupStr
        rw [List.find?_cons_of_neg _ (by simp [hrk]; exact Ne.symm hkk0)]
        exact ih hnd.2 hrest
      | none => exact ih hnd.2 hrest

/-- C2: for every Parameter Table with distinct keys and every variable
mapping, resolution maps each table key to the override when the mapping
contains it, otherwise to the non-empty table default, and omits the key
when the default is empty and no override exists; afterwards the variable
mapping contains exactly the entries whose names are not table keys. -/
theorem findGinkgoParams_spec (defaults : List (String × String)) (e : Execution)
    (hnd : (defaults.map Prod.fst).Nodup) :
    (∀ k p, (k, p) ∈ defaults →
      lookupStr (FindGinkgoParams e defaults).1 k =
        (match e.Variables.find? (fun v => v.Name == k) with
         | some v => some v.Value
         | none => if p = "" then none else some p)) ∧
    (∀ k, (∀ q, (k, q) ∉ defaults) →
      lookupStr (FindGinkgoParams e defaults).1 k = none) ∧
    (∀ v, v ∈ (FindGinkgoParams e defaults).2.Variables ↔
      (v ∈ e.Variables ∧ ∀ q, (v.Name, q) ∉ defaults)) := by
  refine ⟨fun k p hmem => lookupStr_resolve e.Variables defaults hnd k p hmem,
          fun k habs => lookupStr_resolve_none e.Variables defaults k habs,
          fun v => ?_⟩
  unfold FindGinkgoParams
  rw [List.mem_filter]
  constructor
  · rintro ⟨hv, hnone⟩
    refine ⟨hv, fun q hq => ?_⟩
    rw [Option.isNone_iff_eq_none, List.find?_eq_none] at hnone
    exact hnone (v.Name, q) hq (by simp)
  · rintro ⟨hv, habs⟩
    refine ⟨hv, ?_⟩
    rw [Option.isNone_iff_eq_none, List.find?_eq_none]
    intro kp hkp hbeq
    have h1 : kp.1 = v.Name := by simpa using hbeq
    exact habs kp.2 (by rw [← h1]; simpa using hkp)

/-- C2 witness: the real Parameter Table has distinct keys; resolving a
mapping that overrides GinkgoRecursive and carries one unrecognized entry
yields the override in the resolved set, drops the empty-default key
GinkgoFocusFilter, and leaves exactly the unrecognized entry behind. -/
theorem findGinkgoParams_spec_witness :
    (ginkgoDefaultParams.map Prod.fst).Nodup ∧
    lookupStr (FindGinkgoParams
        { Id := "", Content := none,
          Variables := [{ Name := "GinkgoRecursive", Value := "custom" },
                        { Name := "Extra", Value := "1" }], Args := [] }
        ginkgoDefaultParams).1 "GinkgoRecursive" = some "custom" ∧
    lookupStr (FindGinkgoParams
        { Id := "", Content := none,
          Variables := [{ Name := "GinkgoRecursive", Value := "custom" },
                        { Name := "Extra", Value := "1" }], Args := [] }
        ginkgoDefaultParams).1 "GinkgoFocusFilter" = none ∧
    ({ Name := "Extra", Value := "1" } ∈ (FindGinkgoParams
        { Id := "", Content := none,
          Variables := [{ Name := "GinkgoRecursive", Value := "custom" },
                        { Name := "Extra", Value := "1" }], Args := [] }
        ginkgoDefaultParams).2.Variables) := by
  refine ⟨by decide, ?_, ?_, ?_⟩
  · exact ((findGinkgoParams_spec ginkgoDefaultParams
      { Id := "", Content := none,
        Variables := [{ Name := "GinkgoRecursive", Value := "custom" },
                      { Name := "Extra", Value := "1" }], Args := [] }
      (by decide)).1 "GinkgoRecursive" "-r" (by decide)).trans (by decide)
  · exact (findGinkgoParams_spec ginkgoDefaultParams
      { Id := "", Content := none,
        Variables := [{ Name := "GinkgoRecursive", Value := "custom" },
                      { Name := "Extra", Value := "1" }], Args := [] }
      (by decide)).1 "GinkgoFocusFilter" "" (by decide) |>.trans (by decide)
  · exact ((findGinkgoParams_spec ginkgoDefaultParams
      { Id := "", Content := none,
        Variables := [{ Name := "GinkgoRecursive", Value := "custom" },
                      { Name := "Extra", Value := "1" }], Args := [] }
      (by decide)).2.2 { Name := "Extra", Value := "1" }).mpr
      ⟨by decide, by
        intro q hq
        simp [ginkgoDefaultParams, InitializeGinkgoParams] at hq⟩

/-- C6: validation fails exactly on the four conditions checked in source
order with the first failure winning: absent content descriptor, absent
repository reference, repository with both branch and commit empty, and
single-file content; an Execution whose repository has a branch or a commit
set and whose content is not single-file is accepted. -/
theorem validate_spec (e : Execution) :
    (Validate e = none ↔ ∃ c r, e.Content = some c ∧ c.Repository = some r ∧
        (r.Branch ≠ "" ∨ r.Commit ≠ "") ∧ c.IsFile = false) ∧
    (Validate e = some ValidationError.noContent ↔ e.Content = none) ∧
    (Validate e = some ValidationError.noRepository ↔
      ∃ c, e.Content = some c ∧ c.Repository = none) ∧
    (Validate e = some ValidationError.noBranchOrCommit ↔
      ∃ c r, e.Content = some c ∧ c.Repository = some r ∧
        r.Branch = "" ∧ r.Commit = "") ∧
    (Validate e = some ValidationError.singleFile ↔
      ∃ c r, e.Content = some c ∧ c.Repository = some r ∧
        (r.Branch ≠ "" ∨ r.Commit ≠ "") ∧ c.IsFile = true) := by
  obtain ⟨i, c, vs, as⟩ := e
  cases c with
  | none => simp [Validate]
  | some c =>
    obtain ⟨rep, isf⟩ := c
    cases rep with
    | none => simp [Validate]
    | some r =>
      by_cases hb : r.Branch = "" ∧ r.Commit = ""
      · simp [Validate, hb, hb.1, hb.2]
      · rw [not_and_or, ← ne_eq, ← ne_eq] at hb
        cases isf with
        | true =>
          simp only [Validate]
          rw [if_neg (by rw [not_and_or, ← ne_eq, ← ne_eq]; exact hb)]
          simp [hb]
          intro h1 h2
          rcases hb with h | h <;> exact h (by assumption)
        | false =>
          simp only [Validate]
          rw [if_neg (by rw [not_and_or, ← ne_eq, ← ne_eq]; exact hb)]
          simp [hb]
          intro h1 h2
          rcases hb with h | h <;> exact h (by assumption)

end GinkgoRunner
